import Mathlib

/-!
Verification of the SmooAI file library (Python) against its specification.

Shallow embedding notes.  Python strings are modelled as lists of characters
(abbrev PyStr); byte strings as lists of naturals.  External collaborators
(the byte-signature sniffer, the extension/MIME table, the integer parser
used by int(), the HTTP-date parser, the URL fetcher, the object-storage
client, urlparse and unquote from the standard library) are fields of an
Env structure, since the specification treats them as external interfaces.
The filesystem is explicit state (FS).  Exceptions that the code absorbs
are modelled as Option results; fatal exceptions as Except.
-/

set_option maxRecDepth 10000

abbrev PyStr := List Char

/-- Coerce a Lean string literal into the PyStr model. -/
def pys (s : String) : PyStr := s.data

/-- Whitespace test matching the characters recognised both by the regex
class backslash-s and by str.strip for ASCII input. -/
def isSpaceC (c : Char) : Bool :=
  c = ' ' || c = '\t' || c = '\n' || c = '\r' || c = '\x0b' || c = '\x0c'

/-- Python str.strip(): drop leading and trailing whitespace. -/
def pyStrip (s : PyStr) : PyStr :=
  ((s.dropWhile isSpaceC).reverse.dropWhile isSpaceC).reverse

/-- Python str.strip applied with the double-quote character: drop all
leading and trailing quote characters. -/
def stripQuotes (s : PyStr) : PyStr :=
  ((s.dropWhile (fun c => c = '"')).reverse.dropWhile (fun c => c = '"')).reverse

/-- Drop a literal pattern from the front of a string, or fail. -/
def dropLit (pat s : PyStr) : Option PyStr :=
  if pat.isPrefixOf s then some (s.drop pat.length) else none

/-- Case-insensitive variant of dropLit, modelling re.IGNORECASE on a
literal alphabetic pattern. -/
def dropLitCI : PyStr → PyStr → Option PyStr
  | [], s => some s
  | _ :: _, [] => none
  | p :: ps, c :: cs => if p.toLower = c.toLower then dropLitCI ps cs else none

/-- Python os.path.basename for POSIX paths: the part after the last slash. -/
def basenameC (s : PyStr) : PyStr :=
  (s.reverse.takeWhile (fun c => c ≠ '/')).reverse

/-- The dot-suffix part of os.path.splitext, returned as the code returns it:
some extension (leading dot included) when splitext yields a non-empty
extension, none otherwise.  Follows posixpath.splitext: the last dot of the
final path component counts only if a non-dot character precedes it in that
component (leading dots of a component never start an extension). -/
def splitextExt (f : PyStr) : Option PyStr :=
  let base := basenameC f
  let rest := base.dropWhile (fun c => c = '.')
  if rest.contains '.' then
    some ('.' :: (rest.reverse.takeWhile (fun c => c ≠ '.')).reverse)
  else
    none

/-!
Content-Disposition parser, from src/python/src/smooai_file/_content_disposition.py.

The extended-form regex is
  filename\*\s*=\s*(?:UTF-8|utf-8)?''(.+?)(?:;|$)
and the plain-form regex (IGNORECASE) is
  filename\s*=\s*"?([^";]+)"?
Both are used through re.search (leftmost successful match).  We model each
regex directly: lazy group (.+?)(?:;|$) captures the shortest non-empty
prefix ending just before a semicolon or at end of string; the dot of the
regex excludes newline characters, so a group that would contain a newline
makes the match at that position fail.
-/

/-- The lazy group (.+?)(?:;|$): shortest non-empty prefix of the remainder
whose following character is a semicolon, or which ends the string; fails if
that prefix contains a newline (regex dot does not match newline). -/
def lazyGroup : PyStr → Option PyStr
  | [] => none
  | c :: rest =>
    let g := c :: rest.takeWhile (fun x => x ≠ ';')
    if g.contains '\n' then none else some g

/-- Attempt the extended-form pattern anchored at the current position. -/
def matchStarAt (s : PyStr) : Option PyStr :=
  match dropLit (pys "filename*") s with
  | none => none
  | some s1 =>
    match s1.dropWhile isSpaceC with
    | '=' :: s3 =>
      let s4 := s3.dropWhile isSpaceC
      match dropLit (pys "UTF-8''") s4 with
      | some r => lazyGroup r
      | none =>
        match dropLit (pys "utf-8''") s4 with
        | some r => lazyGroup r
        | none =>
          match dropLit (pys "''") s4 with
          | some r => lazyGroup r
          | none => none
    | _ => none

/-- re.search for the extended form: leftmost position where it matches. -/
def searchStar : PyStr → Option PyStr
  | [] => none
  | c :: rest =>
    match matchStarAt (c :: rest) with
    | some g => some g
    | none => searchStar rest

/-- Attempt the plain-form pattern anchored at the current position.  The
optional opening quote is consumed greedily; backtracking to the unquoted
alternative is modelled by the orElse, though the group class excludes the
quote so the second alternative can never succeed after a quote. -/
def matchPlainAt (s : PyStr) : Option PyStr :=
  match dropLitCI (pys "filename") s with
  | none => none
  | some s1 =>
    match s1.dropWhile isSpaceC with
    | '=' :: s3 =>
      let s4 := s3.dropWhile isSpaceC
      let core := fun (r : PyStr) =>
        let g := r.takeWhile (fun c => c ≠ '"' && c ≠ ';')
        if g = [] then none else some g
      match s4 with
      | '"' :: s5 =>
        match core s5 with
        | some g => some g
        | none => core s4
      | _ => core s4
    | _ => none

/-- re.search for the plain form: leftmost position where it matches. -/
def searchPlain : PyStr → Option PyStr
  | [] => none
  | c :: rest =>
    match matchPlainAt (c :: rest) with
    | some g => some g
    | none => searchPlain rest

/-- parse_content_disposition from _content_disposition.py.  The unquote
argument models urllib.parse.unquote (an external standard-library
collaborator): it percent-decodes the extended-form value. -/
def parse_content_disposition (uq : PyStr → PyStr) (header_value : PyStr) :
    Option PyStr × Option PyStr :=
  if header_value = [] then (none, none)
  else
    let fromStar : Option PyStr := (searchStar header_value).map (fun g => uq (pyStrip g))
    let filename : Option PyStr :=
      match fromStar with
      | some f => some f
      | none => (searchPlain header_value).map (fun g => stripQuotes (pyStrip g))
    match filename with
    | none => (none, none)
    | some f => (some f, splitextExt f)

/-!
Data model, from _metadata.py, _source.py, and the external-interface
section of the specification.  Timestamps are opaque (Date := Int).
-/

abbrev Date := Int

/-- FileSource from _source.py: the closed five-way source tag. -/
inductive FileSource where
  | URL
  | BYTES
  | FILE
  | STREAM
  | S3
deriving DecidableEq

/-- Metadata from _metadata.py: every field optional. -/
structure Metadata where
  name : Option PyStr := none
  mime_type : Option PyStr := none
  size : Option Int := none
  extension : Option PyStr := none
  url : Option PyStr := none
  path : Option PyStr := none
  hash : Option PyStr := none
  last_modified : Option Date := none
  created_at : Option Date := none
deriving DecidableEq

/-- The relevant headers of an httpx response (httpx header lookup is
case-insensitive; we model the six headers the code reads, plus the body). -/
structure HttpResponse where
  contentDisposition : Option PyStr := none
  contentType : Option PyStr := none
  contentLength : Option PyStr := none
  etag : Option PyStr := none
  lastModified : Option PyStr := none
  contentMd5 : Option PyStr := none
  body : List Nat := []
deriving DecidableEq

/-- MetadataHint from _metadata.py: a partial Metadata overlay, possibly
carrying a raw transport-response handle. -/
structure MetadataHint where
  name : Option PyStr := none
  mime_type : Option PyStr := none
  size : Option Int := none
  extension : Option PyStr := none
  url : Option PyStr := none
  path : Option PyStr := none
  hash : Option PyStr := none
  last_modified : Option Date := none
  created_at : Option Date := none
  response : Option HttpResponse := none
deriving DecidableEq

/-- The S3 LastModified attribute: either an actual datetime instance or
some other value the code stringifies and tries to parse. -/
inductive S3Time where
  | dt (d : Date)
  | other (s : PyStr)
deriving DecidableEq

/-- The fields of a boto3 get_object response that the code reads.  The
ContentLength attribute is modelled in its string form and parsed through
the external integer parser, covering both the parse-success and the
parse-failure (ValueError/TypeError) branches of int(). -/
structure S3Response where
  body : Option (List Nat) := none
  contentDisposition : Option PyStr := none
  contentType : Option PyStr := none
  contentLength : Option PyStr := none
  eTag : Option PyStr := none
  lastModified : Option S3Time := none
deriving DecidableEq

/-- The filesystem, as explicit state: file contents plus stat timestamps.
A missing entry models both a read failure and an OSError from os.stat. -/
structure FS where
  contents : PyStr → Option (List Nat)
  mtime : PyStr → Date
  ctime : PyStr → Date

/-- External collaborators (specification section 6).  Option results model
absorbed exceptions (parse failures, urlparse errors); a none from fetch or
s3_get models a fatal transport error. -/
structure Env where
  detect_from_bytes : List Nat → Option PyStr × Option PyStr
  detect_from_extension : PyStr → Option PyStr × Option PyStr
  extension_from_mime : PyStr → Option PyStr
  parse_int : PyStr → Option Int
  parse_http_date : PyStr → Option Date
  urlparse_path : PyStr → Option PyStr
  unquote : PyStr → PyStr
  abspath : PyStr → PyStr
  fetch : PyStr → Option HttpResponse
  s3_get : PyStr → PyStr → Option S3Response

/-- Python truthiness of an optional string: None and the empty string are
falsy. -/
def truthy : Option PyStr → Bool
  | none => false
  | some s => !s.isEmpty

/-- _filename_from_url from _file.py: basename of the parsed URL path, or
none when absent, empty, equal to a slash, or when urlparse raises. -/
def filename_from_url (env : Env) (url : Option PyStr) : Option PyStr :=
  match url with
  | none => none
  | some u =>
    if u = [] then none
    else
      match env.urlparse_path u with
      | none => none
      | some p =>
        let b := basenameC p
        if b ≠ [] ∧ b ≠ ['/'] then some b else none

/-!
The metadata resolution cascade of File._build_metadata, modelled as the
sequential composition of its stages (the code runs the blocks in exactly
this order, each block only reading values left by earlier blocks).
-/

/-- Stage 1 (seed): copy every field of the hint into the working record. -/
def seedStage (hint : MetadataHint) : Metadata :=
  { name := hint.name
    mime_type := hint.mime_type
    size := hint.size
    extension := hint.extension
    url := hint.url
    path := hint.path
    hash := hint.hash
    last_modified := hint.last_modified
    created_at := hint.created_at }

/-- Stage 2a (HTTP response headers block of _build_metadata). -/
def httpStage (env : Env) (r : Option HttpResponse) (m : Metadata) : Metadata :=
  match r with
  | none => m
  | some r =>
    let name :=
      if truthy r.contentDisposition then
        match (parse_content_disposition env.unquote (r.contentDisposition.getD [])).1 with
        | some n => if n ≠ [] then some n else m.name
        | none => m.name
      else m.name
    let name :=
      match name with
      | none => filename_from_url env m.url
      | some n => some n
    let size :=
      match r.contentLength with
      | none => m.size
      | some cl =>
        match env.parse_int cl with
        | some n => some n
        | none => m.size
    let mt :=
      if truthy r.contentType then r.contentType
      else if truthy name then
        match (env.detect_from_extension (name.getD [])).1 with
        | some em => if em ≠ [] then some em else m.mime_type
        | none => m.mime_type
      else m.mime_type
    let h :=
      if truthy r.etag then some (stripQuotes (r.etag.getD []))
      else if truthy r.contentMd5 then r.contentMd5
      else m.hash
    let lm :=
      if truthy r.lastModified then
        match env.parse_http_date (r.lastModified.getD []) with
        | some d => some d
        | none => m.last_modified
      else m.last_modified
    { m with name := name, size := size, mime_type := mt, hash := h, last_modified := lm }

/-- Stage 2b (S3 response metadata block of _build_metadata). -/
def s3Stage (env : Env) (r : Option S3Response) (m : Metadata) : Metadata :=
  match r with
  | none => m
  | some r =>
    let name :=
      if truthy r.contentDisposition then
        match (parse_content_disposition env.unquote (r.contentDisposition.getD [])).1 with
        | some n => if n ≠ [] then some n else m.name
        | none => m.name
      else m.name
    let size :=
      match r.contentLength with
      | none => m.size
      | some cl =>
        match env.parse_int cl with
        | some n => some n
        | none => m.size
    let mt :=
      if truthy r.contentType then r.contentType
      else if truthy name then
        match (env.detect_from_extension (name.getD [])).1 with
        | some em => if em ≠ [] then some em else m.mime_type
        | none => m.mime_type
      else m.mime_type
    let h :=
      if truthy r.eTag then some (stripQuotes (r.eTag.getD []))
      else m.hash
    let lm :=
      match r.lastModified with
      | none => m.last_modified
      | some (S3Time.dt d) => some d
      | some (S3Time.other s) =>
        if s ≠ [] then
          match env.parse_http_date s with
          | some d => some d
          | none => m.last_modified
        else m.last_modified
    { m with name := name, size := size, mime_type := mt, hash := h, last_modified := lm }

/-- Stage 3 (filesystem stat block): only for FILE sources with a truthy
path; a stat failure (missing entry) leaves size and the timestamps
unchanged; extension-based MIME detection on the path runs regardless. -/
def statStage (env : Env) (fs : FS) (src : FileSource) (m : Metadata) : Metadata :=
  if src = FileSource.FILE ∧ truthy m.path then
    let p := m.path.getD []
    let m1 :=
      match fs.contents p with
      | some d =>
        { m with size := some (Int.ofNat d.length),
                 last_modified := some (fs.mtime p),
                 created_at := some (fs.ctime p) }
      | none => m
    match (env.detect_from_extension p).1 with
    | some em => if em ≠ [] then { m1 with mime_type := some em } else m1
    | none => m1
  else m

/-- Stage 4 (name-based MIME fallback). -/
def nameMimeStage (env : Env) (m : Metadata) : Metadata :=
  if ¬ truthy m.mime_type ∧ truthy m.name then
    match (env.detect_from_extension (m.name.getD [])).1 with
    | some em => if em ≠ [] then { m with mime_type := some em } else m
    | none => m
  else m

/-- Whether a string starts with a dot (Python str.startswith applied with
a dot argument). -/
def startsDot (s : PyStr) : Bool :=
  match s with
  | c :: _ => c = '.'
  | [] => false

/-- Whether a string starts with two dots. -/
def twoDots (s : PyStr) : Bool :=
  match s with
  | c :: t => c = '.' && startsDot t
  | [] => false

/-- Normalise a sniffed extension to carry a leading dot, as the magic-byte
block does. -/
def ensureDot (e : PyStr) : PyStr :=
  if startsDot e then e else '.' :: e

/-- Stage 5 (magic-byte detection): runs only on non-empty data; a sniffed
MIME type unconditionally overwrites mime_type; a sniffed extension
overwrites extension (with a leading dot ensured). -/
def magicStage (env : Env) (data : Option (List Nat)) (m : Metadata) : Metadata :=
  match data with
  | none => m
  | some d =>
    if d ≠ [] then
      let res := env.detect_from_bytes d
      let mt :=
        match res.1 with
        | some mm => if mm ≠ [] then some mm else m.mime_type
        | none => m.mime_type
      let ext :=
        match res.2 with
        | some me => if me ≠ [] then some (ensureDot me) else m.extension
        | none => m.extension
      { m with mime_type := mt, extension := ext }
    else m

/-- Stage 6 (extension fallback from MIME). -/
def extFromMimeStage (env : Env) (m : Metadata) : Metadata :=
  if ¬ truthy m.extension ∧ truthy m.mime_type then
    match env.extension_from_mime (m.mime_type.getD []) with
    | some e => if e ≠ [] then { m with extension := some e } else m
    | none => m
  else m

/-- Stage 7 (normalisation): strip a leading dot from a truthy extension. -/
def normalizeStage (m : Metadata) : Metadata :=
  if truthy m.extension ∧ startsDot (m.extension.getD []) then
    { m with extension := some ((m.extension.getD []).drop 1) }
  else m

/-- File._build_metadata: the full cascade.  When no explicit response is
passed, a response carried by the hint is used for the header stage. -/
def build_metadata (env : Env) (fs : FS) (file_source : FileSource)
    (hint : MetadataHint) (http_response : Option HttpResponse)
    (s3_response : Option S3Response) (data : Option (List Nat)) : Metadata :=
  let hr :=
    match http_response with
    | none => hint.response
    | some r => some r
  normalizeStage (extFromMimeStage env (magicStage env data (nameMimeStage env
    (statStage env fs file_source (s3Stage env s3_response (httpStage env hr
      (seedStage hint)))))))

/-!
File entity and its operations, from _file.py.
-/

/-- Error taxonomy.  invalidSourceOperation models the RuntimeError raised
by append/prepend/truncate/get_signed_url on an incompatible source tag;
missingBody the missing S3 body; transportFailure a non-success fetch or a
storage-client failure; ioError any other propagated OSError/ValueError. -/
inductive Err where
  | invalidSourceOperation
  | missingBody
  | transportFailure
  | fileNotFound
  | ioError
deriving DecidableEq

/-- The File entity: source tag, metadata, and the payload (buffered bytes
or a pending async stream, modelled as its list of chunks). -/
structure FileEnt where
  source : FileSource
  metadata : Metadata
  bytes : Option (List Nat) := none
  stream : Option (List (List Nat)) := none
deriving DecidableEq

/-- File.from_bytes: buffer the bytes; the observed length overwrites any
size carried by the hint before the cascade runs. -/
def from_bytes (env : Env) (fs : FS) (data : List Nat) (hint : MetadataHint) : FileEnt :=
  let raw := data
  let hint1 := { hint with size := some (Int.ofNat raw.length) }
  { source := FileSource.BYTES
    metadata := build_metadata env fs FileSource.BYTES hint1 none none (some raw)
    bytes := some raw }

/-- File.from_stream: drain every chunk into one buffer (both the async
iterator and the sync read loop concatenate the chunks), then proceed as
from_bytes with the STREAM tag. -/
def from_stream (env : Env) (fs : FS) (chunks : List (List Nat)) (hint : MetadataHint) : FileEnt :=
  let data := chunks.foldr (fun a b => a ++ b) []
  let hint1 := { hint with size := some (Int.ofNat data.length) }
  { source := FileSource.STREAM
    metadata := build_metadata env fs FileSource.STREAM hint1 none none (some data)
    bytes := some data }

/-- File.from_url: fetch the URL (a status failure aborts construction),
seed the hint with the URL, resolve, and buffer the body. -/
def from_url (env : Env) (fs : FS) (url : PyStr) (hint : MetadataHint) : Except Err FileEnt :=
  match env.fetch url with
  | none => Except.error Err.transportFailure
  | some resp =>
    let hint1 := { hint with url := some url }
    Except.ok
      { source := FileSource.URL
        metadata := build_metadata env fs FileSource.URL hint1 (some resp) none (some resp.body)
        bytes := some resp.body }

/-- File.from_file: make the path absolute, seed path and basename, read
the content from disk (a read failure aborts construction), resolve. -/
def from_file (env : Env) (fs : FS) (file_path : PyStr) (hint : MetadataHint) : Except Err FileEnt :=
  let abs := env.abspath file_path
  let hint1 := { hint with path := some abs, name := some (basenameC abs) }
  match fs.contents abs with
  | none => Except.error Err.fileNotFound
  | some data =>
    Except.ok
      { source := FileSource.FILE
        metadata := build_metadata env fs FileSource.FILE hint1 none none (some data)
        bytes := some data }

/-- File.from_s3: get the object (client failure aborts; a missing body is
the MissingBody error), seed the canonical s3 locator and the basename
of the key, resolve. -/
def from_s3 (env : Env) (fs : FS) (bucket key : PyStr) (hint : MetadataHint) : Except Err FileEnt :=
  match env.s3_get bucket key with
  | none => Except.error Err.transportFailure
  | some resp =>
    match resp.body with
    | none => Except.error Err.missingBody
    | some data =>
      let hint1 := { hint with
        url := some (pys "s3://" ++ bucket ++ ['/'] ++ key)
        name := some (basenameC key) }
      Except.ok
        { source := FileSource.S3
          metadata := build_metadata env fs FileSource.S3 hint1 none (some resp) (some data)
          bytes := some data }

/-- Python str.split with separator slash and maxsplit one: the parts
before and after the first slash, when one exists. -/
def splitFirstSlash : PyStr → Option (PyStr × PyStr)
  | [] => none
  | c :: t =>
    if c = '/' then some ([], t)
    else
      match splitFirstSlash t with
      | some (a, b) => some (c :: a, b)
      | none => none

/-- Python str.replace(pat, empty, 1): delete the first occurrence of the
pattern, leaving the string unchanged when the pattern does not occur. -/
def replaceFirstEmpty (pat : PyStr) : PyStr → PyStr
  | [] => []
  | c :: t =>
    if pat.isPrefixOf (c :: t) then (c :: t).drop pat.length
    else c :: replaceFirstEmpty pat t

/-- _parse_s3_url from _file.py: strip the first occurrence of the scheme,
split on the first slash; fewer than two parts is a ValueError. -/
def parse_s3_url (url : PyStr) : Except Err (PyStr × PyStr) :=
  let stripped := replaceFirstEmpty (pys "s3://") url
  match splitFirstSlash stripped with
  | some (a, b) => Except.ok (a, b)
  | none => Except.error Err.ioError

/-- File.read: return the buffer when materialised; otherwise drain the
pending async stream, cache the result, and return it; with neither, the
empty byte string. -/
def FileEnt.read (f : FileEnt) : List Nat × FileEnt :=
  match f.bytes with
  | some b => (b, f)
  | none =>
    match f.stream with
    | some chunks =>
      let b := chunks.foldr (fun a c => a ++ c) []
      (b, { f with bytes := some b })
    | none => ([], f)

/-- File._refresh: re-run the originating construction path and replace the
whole internal state; an unmatched case is a RuntimeError. -/
def refresh (env : Env) (fs : FS) (f : FileEnt) : Except Err FileEnt :=
  if f.source = FileSource.FILE ∧ truthy f.metadata.path then
    from_file env fs (f.metadata.path.getD []) {}
  else if f.source = FileSource.S3 ∧ truthy f.metadata.url then
    match parse_s3_url (f.metadata.url.getD []) with
    | Except.ok (b, k) => from_s3 env fs b k {}
    | Except.error e => Except.error e
  else if f.source = FileSource.URL ∧ truthy f.metadata.url then
    from_url env fs (f.metadata.url.getD []) {}
  else if f.source = FileSource.BYTES ∧ f.bytes ≠ none then
    Except.ok (from_bytes env fs (f.bytes.getD []) {})
  else if f.source = FileSource.STREAM ∧ f.stream ≠ none then
    Except.ok (from_stream env fs (f.stream.getD []) {})
  else Except.error Err.ioError

/-- Content accepted by append and prepend: str (encoded as UTF-8) or
bytes. -/
inductive Content where
  | ofString (s : PyStr)
  | ofBytes (b : List Nat)
deriving DecidableEq

/-- UTF-8 encoding of str content, as content.encode applies it. -/
def encodeContent : Content → List Nat
  | Content.ofString s => ((String.mk s).toUTF8.toList.map (fun b => b.toNat))
  | Content.ofBytes b => b

/-- Overwrite one path of the filesystem state. -/
def FS.write (fs : FS) (p : PyStr) (d : List Nat) : FS :=
  { fs with contents := fun q => if q = p then some d else fs.contents q }

/-- File.append: only for FILE sources with a truthy path (otherwise the
invalid-source error leaves entity and filesystem untouched); opens the
path in append mode (creating it when missing), writes, then refreshes. -/
def FileEnt.append (f : FileEnt) (env : Env) (fs : FS) (content : Content) :
    Except Err Unit × FileEnt × FS :=
  if f.source ≠ FileSource.FILE ∨ ¬ truthy f.metadata.path then
    (Except.error Err.invalidSourceOperation, f, fs)
  else
    let p := f.metadata.path.getD []
    let raw := encodeContent content
    let old := (fs.contents p).getD []
    let fs1 := fs.write p (old ++ raw)
    match refresh env fs1 f with
    | Except.ok f1 => (Except.ok (), f1, fs1)
    | Except.error e => (Except.error e, f, fs1)

/-- File.prepend: same gate; reads the buffer held by the entity, rewrites the
file as new content followed by that buffer, then refreshes. -/
def FileEnt.prepend (f : FileEnt) (env : Env) (fs : FS) (content : Content) :
    Except Err Unit × FileEnt × FS :=
  if f.source ≠ FileSource.FILE ∨ ¬ truthy f.metadata.path then
    (Except.error Err.invalidSourceOperation, f, fs)
  else
    let p := f.metadata.path.getD []
    let pr := f.read
    let raw := encodeContent content
    let fs1 := fs.write p (raw ++ pr.1)
    match refresh env fs1 pr.2 with
    | Except.ok f1 => (Except.ok (), f1, fs1)
    | Except.error e => (Except.error e, pr.2, fs1)

/-- File.truncate: same gate; opening in r+b mode fails when the file is
missing; otherwise truncate (padding with zero bytes past the end, POSIX
semantics), then refresh. -/
def FileEnt.truncate (f : FileEnt) (env : Env) (fs : FS) (size : Nat) :
    Except Err Unit × FileEnt × FS :=
  if f.source ≠ FileSource.FILE ∨ ¬ truthy f.metadata.path then
    (Except.error Err.invalidSourceOperation, f, fs)
  else
    let p := f.metadata.path.getD []
    match fs.contents p with
    | none => (Except.error Err.ioError, f, fs)
    | some d =>
      let nd := if size ≤ d.length then d.take size else d ++ List.replicate (size - d.length) 0
      let fs1 := fs.write p nd
      match refresh env fs1 f with
      | Except.ok f1 => (Except.ok (), f1, fs1)
      | Except.error e => (Except.error e, f, fs1)

/-!
Concrete instantiation of the external collaborators, used to evaluate the
model on the scenarios of the specification.  Modelled from the spec: the
byte-signature sniffer and the extension/MIME table are external detector
services (specification sections 2 and 6); they are instantiated here on
the signatures and types named by the scenarios of the specification (PNG signature,
txt/png/pdf extensions), and the standard-library integer parser,
percent-decoder and date parser are given straightforward concrete models.
-/

/-- The eight-byte PNG signature. -/
def pngSig : List Nat := [137, 80, 78, 71, 13, 10, 26, 10]

/-- ASCII bytes of a Lean string, for concrete byte-string literals. -/
def asciiBytes (s : String) : List Nat := s.data.map (fun c => c.toNat)

/-- Modelled from the spec: the extension-to-MIME side of the external
extension/MIME table, on the extensions the scenarios use. -/
def testExtMime (n : PyStr) : Option PyStr :=
  if (pys ".txt").isSuffixOf n then some (pys "text/plain")
  else if (pys ".png").isSuffixOf n then some (pys "image/png")
  else if (pys ".pdf").isSuffixOf n then some (pys "application/pdf")
  else none

/-- Decimal digits to a natural number, or none when any non-digit occurs. -/
def digitsVal : PyStr → Option Nat
  | [] => none
  | ds =>
    if ds.all (fun c => c.isDigit) then
      some (ds.foldl (fun a c => 10 * a + (c.toNat - 48)) 0)
    else none

/-- Concrete model of the Python int constructor on strings: surrounding
whitespace allowed, optional sign, decimal digits. -/
def testParseInt (s : PyStr) : Option Int :=
  match pyStrip s with
  | '-' :: ds => (digitsVal ds).map (fun n => -(Int.ofNat n))
  | '+' :: ds => (digitsVal ds).map Int.ofNat
  | ds => (digitsVal ds).map Int.ofNat

/-- Value of one hexadecimal digit. -/
def hexVal (c : Char) : Option Nat :=
  if c.isDigit then some (c.toNat - 48)
  else if 'a' ≤ c ∧ c ≤ 'f' then some (c.toNat - 87)
  else if 'A' ≤ c ∧ c ≤ 'F' then some (c.toNat - 55)
  else none

/-- Concrete model of urllib.parse.unquote for single-byte percent escapes:
a percent sign followed by two hexadecimal digits becomes the character
with that code; anything else is kept as is. -/
def percentDecode : PyStr → PyStr
  | [] => []
  | '%' :: a :: b :: t =>
    match hexVal a, hexVal b with
    | some x, some y => Char.ofNat (16 * x + y) :: percentDecode t
    | _, _ => '%' :: percentDecode (a :: b :: t)
  | c :: t => c :: percentDecode t

/-- A fixed HTTP response used by the round-trip scenario. -/
def testResp : HttpResponse := { body := [1, 2, 3] }

/-- A fixed S3 response: ContentLength attribute 999 while the actual body
has two bytes, ETag present. -/
def testS3 : S3Response :=
  { body := some [7, 7]
    contentLength := some (pys "999")
    eTag := some (pys "\"abc\"") }

/-- The concrete environment for evaluating scenarios. -/
def testEnv : Env :=
  { detect_from_bytes := fun d =>
      if pngSig.isPrefixOf d then (some (pys "image/png"), some (pys ".png"))
      else (none, none)
    detect_from_extension := fun n => (testExtMime n, splitextExt n)
    extension_from_mime := fun mt =>
      if mt = pys "text/plain" then some (pys ".txt")
      else if mt = pys "image/png" then some (pys ".png")
      else if mt = pys "application/pdf" then some (pys ".pdf")
      else none
    parse_int := testParseInt
    parse_http_date := fun _ => none
    urlparse_path := fun u => some u
    unquote := percentDecode
    abspath := fun p => p
    fetch := fun u => if u = pys "http://host/f.bin" then some testResp else none
    s3_get := fun b k =>
      if b = pys "bucket" ∧ k = pys "dir/key.bin" then some testS3 else none }

/-- An empty filesystem with constant timestamps. -/
def testFS : FS :=
  { contents := fun _ => none
    mtime := fun _ => 0
    ctime := fun _ => 0 }

/-- A transport response claiming application/octet-stream while carrying a
PNG body. -/
def octetResp : HttpResponse :=
  { contentType := some (pys "application/octet-stream"), body := pngSig }

/-- A filesystem with one file on it. -/
def testFS2 : FS :=
  { contents := fun p => if p = pys "/tmp/f.txt" then some (asciiBytes "hi") else none
    mtime := fun _ => 5
    ctime := fun _ => 6 }

/-- Extract the entity from a successful construction (dummy otherwise). -/
def getOk : Except Err FileEnt → FileEnt
  | Except.ok f => f
  | Except.error _ => { source := FileSource.BYTES, metadata := {} }

/-!
Field-preservation lemmas for the cascade stages: each stage writes only
the fields its code block assigns.
-/

theorem httpStage_ext (env : Env) (r : Option HttpResponse) (m : Metadata) :
    (httpStage env r m).extension = m.extension := by
  cases r <;> rfl

theorem httpStage_url (env : Env) (r : Option HttpResponse) (m : Metadata) :
    (httpStage env r m).url = m.url := by
  cases r <;> rfl

theorem s3Stage_ext (env : Env) (r : Option S3Response) (m : Metadata) :
    (s3Stage env r m).extension = m.extension := by
  cases r <;> rfl

theorem s3Stage_url (env : Env) (r : Option S3Response) (m : Metadata) :
    (s3Stage env r m).url = m.url := by
  cases r <;> rfl

theorem statStage_not_file (env : Env) (fs : FS) (src : FileSource) (m : Metadata)
    (h : src ≠ FileSource.FILE) : statStage env fs src m = m := by
  unfold statStage
  rw [if_neg]
  intro hc
  exact h hc.1

theorem statStage_ext (env : Env) (fs : FS) (src : FileSource) (m : Metadata) :
    (statStage env fs src m).extension = m.extension := by
  simp only [statStage]
  repeat' split
  all_goals rfl

theorem statStage_url (env : Env) (fs : FS) (src : FileSource) (m : Metadata) :
    (statStage env fs src m).url = m.url := by
  simp only [statStage]
  repeat' split
  all_goals rfl

theorem nameMimeStage_size (env : Env) (m : Metadata) :
    (nameMimeStage env m).size = m.size := by
  unfold nameMimeStage
  repeat' split
  all_goals rfl

theorem nameMimeStage_ext (env : Env) (m : Metadata) :
    (nameMimeStage env m).extension = m.extension := by
  unfold nameMimeStage
  repeat' split
  all_goals rfl

theorem nameMimeStage_url (env : Env) (m : Metadata) :
    (nameMimeStage env m).url = m.url := by
  unfold nameMimeStage
  repeat' split
  all_goals rfl

theorem magicStage_size (env : Env) (data : Option (List Nat)) (m : Metadata) :
    (magicStage env data m).size = m.size := by
  unfold magicStage
  repeat' split
  all_goals rfl

theorem magicStage_url (env : Env) (data : Option (List Nat)) (m : Metadata) :
    (magicStage env data m).url = m.url := by
  unfold magicStage
  repeat' split
  all_goals rfl

theorem extFromMimeStage_mime (env : Env) (m : Metadata) :
    (extFromMimeStage env m).mime_type = m.mime_type := by
  unfold extFromMimeStage
  repeat' split
  all_goals rfl

theorem extFromMimeStage_size (env : Env) (m : Metadata) :
    (extFromMimeStage env m).size = m.size := by
  unfold extFromMimeStage
  repeat' split
  all_goals rfl

theorem extFromMimeStage_url (env : Env) (m : Metadata) :
    (extFromMimeStage env m).url = m.url := by
  unfold extFromMimeStage
  repeat' split
  all_goals rfl

theorem normalizeStage_mime (m : Metadata) :
    (normalizeStage m).mime_type = m.mime_type := by
  unfold normalizeStage
  repeat' split
  all_goals rfl

theorem normalizeStage_size (m : Metadata) :
    (normalizeStage m).size = m.size := by
  unfold normalizeStage
  repeat' split
  all_goals rfl

theorem normalizeStage_url (m : Metadata) :
    (normalizeStage m).url = m.url := by
  unfold normalizeStage
  repeat' split
  all_goals rfl

theorem magicStage_mime_of_detect (env : Env) (d : List Nat) (m : Metadata)
    (hd : d ≠ []) (mm : PyStr) (h1 : (env.detect_from_bytes d).1 = some mm)
    (h2 : mm ≠ []) :
    (magicStage env (some d) m).mime_type = some mm := by
  unfold magicStage
  simp [hd, h1, h2]

/-- C1: in the metadata cascade, whenever the raw data is non-empty and the
byte-signature sniffer returns a MIME type, the resolved mime type equals
the sniffed MIME type, whatever the hint, header, stat, or name-based
stages set before it. -/
theorem c1_magic_mime_overrides (env : Env) (fs : FS) (src : FileSource)
    (hint : MetadataHint) (hr : Option HttpResponse) (sr : Option S3Response)
    (d : List Nat) (mm : PyStr) (hd : d ≠ [])
    (h1 : (env.detect_from_bytes d).1 = some mm) (h2 : mm ≠ []) :
    (build_metadata env fs src hint hr sr (some d)).mime_type = some mm := by
  unfold build_metadata
  rw [normalizeStage_mime, extFromMimeStage_mime]
  exact magicStage_mime_of_detect env d _ hd mm h1 h2

/-- Witness for C1: bytes with the PNG signature resolve to image/png even
though the content-type header claims application/octet-stream. -/
theorem c1_magic_mime_overrides_witness :
    (build_metadata testEnv testFS FileSource.URL {} (some octetResp) none
      (some pngSig)).mime_type = some (pys "image/png") :=
  c1_magic_mime_overrides testEnv testFS FileSource.URL {} (some octetResp) none
    pngSig (pys "image/png") (by decide) (by decide) (by decide)

/-- C2: for each of the five source variants, constructing and then calling
read returns exactly the bytes the backend supplied (the passed bytes, the
concatenation of the stream chunks, the downloaded body, the on-disk
content, the object-storage body), and a second read returns the same. -/
theorem c2_read_roundtrip (env : Env) (fs : FS) :
    (∀ d hint, ((from_bytes env fs d hint).read).1 = d ∧
      (((from_bytes env fs d hint).read).2.read).1 = d) ∧
    (∀ chunks hint,
      ((from_stream env fs chunks hint).read).1 = chunks.foldr (fun a b => a ++ b) [] ∧
      (((from_stream env fs chunks hint).read).2.read).1 = chunks.foldr (fun a b => a ++ b) []) ∧
    (∀ u hint resp f, env.fetch u = some resp → from_url env fs u hint = Except.ok f →
      (f.read).1 = resp.body ∧ ((f.read).2.read).1 = resp.body) ∧
    (∀ p hint c f, fs.contents (env.abspath p) = some c →
      from_file env fs p hint = Except.ok f →
      (f.read).1 = c ∧ ((f.read).2.read).1 = c) ∧
    (∀ b k hint r body f, env.s3_get b k = some r → r.body = some body →
      from_s3 env fs b k hint = Except.ok f →
      (f.read).1 = body ∧ ((f.read).2.read).1 = body) := by
  refine ⟨fun d hint => ⟨rfl, rfl⟩, fun chunks hint => ⟨rfl, rfl⟩, ?_, ?_, ?_⟩
  · intro u hint resp f hf hok
    unfold from_url at hok
    simp only [hf, Except.ok.injEq] at hok
    subst hok
    exact ⟨rfl, rfl⟩
  · intro p hint c f hc hok
    unfold from_file at hok
    simp only [hc, Except.ok.injEq] at hok
    subst hok
    exact ⟨rfl, rfl⟩
  · intro b k hint r body f hr hb hok
    unfold from_s3 at hok
    simp only [hr, hb, Except.ok.injEq] at hok
    subst hok
    exact ⟨rfl, rfl⟩

/-- Witness for C2: concrete constructions of all five variants round-trip
their bytes through read, twice. -/
theorem c2_read_roundtrip_witness :
    ((from_bytes testEnv testFS2 [5, 6] {}).read).1 = [5, 6] ∧
    ((from_stream testEnv testFS2 [[1], [2, 3]] {}).read).1 = [1, 2, 3] ∧
    ((getOk (from_url testEnv testFS2 (pys "http://host/f.bin") {})).read).1 = testResp.body ∧
    ((getOk (from_file testEnv testFS2 (pys "/tmp/f.txt") {})).read).1 = asciiBytes "hi" ∧
    ((getOk (from_s3 testEnv testFS2 (pys "bucket") (pys "dir/key.bin") {})).read).1 = [7, 7] :=
  ⟨((c2_read_roundtrip testEnv testFS2).1 [5, 6] {}).1,
   (((c2_read_roundtrip testEnv testFS2).2.1 [[1], [2, 3]] {}).1),
   ((c2_read_roundtrip testEnv testFS2).2.2.1 (pys "http://host/f.bin") {} testResp _
     (by decide) rfl).1,
   ((c2_read_roundtrip testEnv testFS2).2.2.2.1 (pys "/tmp/f.txt") {} (asciiBytes "hi") _
     (by decide) rfl).1,
   ((c2_read_roundtrip testEnv testFS2).2.2.2.2 (pys "bucket") (pys "dir/key.bin") {} testS3 [7, 7] _
     (by decide) (by decide) rfl).1⟩

/-- C4: append, prepend, and truncate on an entity whose source tag is not
FILE fail with the invalid-source-operation error and leave the entity and
the filesystem exactly as they were. -/
theorem c4_invalid_source_ops (env : Env) (fs : FS) (f : FileEnt) (c : Content)
    (n : Nat) (h : f.source ≠ FileSource.FILE) :
    f.append env fs c = (Except.error Err.invalidSourceOperation, f, fs) ∧
    f.prepend env fs c = (Except.error Err.invalidSourceOperation, f, fs) ∧
    f.truncate env fs n = (Except.error Err.invalidSourceOperation, f, fs) := by
  unfold FileEnt.append FileEnt.prepend FileEnt.truncate
  refine ⟨?_, ?_, ?_⟩ <;> rw [if_pos (Or.inl h)]

/-- Witness for C4: the three operations on a bytes-sourced entity error
out without touching entity or filesystem. -/
theorem c4_invalid_source_ops_witness :
    (from_bytes testEnv testFS [1] {}).append testEnv testFS (Content.ofBytes [2]) =
      (Except.error Err.invalidSourceOperation, from_bytes testEnv testFS [1] {}, testFS) ∧
    (from_bytes testEnv testFS [1] {}).prepend testEnv testFS (Content.ofBytes [2]) =
      (Except.error Err.invalidSourceOperation, from_bytes testEnv testFS [1] {}, testFS) ∧
    (from_bytes testEnv testFS [1] {}).truncate testEnv testFS 0 =
      (Except.error Err.invalidSourceOperation, from_bytes testEnv testFS [1] {}, testFS) :=
  c4_invalid_source_ops testEnv testFS (from_bytes testEnv testFS [1] {})
    (Content.ofBytes [2]) 0 (by decide)

theorem s3Stage_size_of_parse (env : Env) (r : S3Response) (m : Metadata)
    (cl : PyStr) (n : Int) (h1 : r.contentLength = some cl)
    (h2 : env.parse_int cl = some n) :
    (s3Stage env (some r) m).size = some n := by
  unfold s3Stage
  simp [h1, h2]

/-- C5: for an object-storage construction whose content-length attribute
parses as 999 while the body has a different length, the resolved size is
999: the transport-stage value stands because no later stage writes size
for an S3 source. -/
theorem c5_s3_content_length_stands (env : Env) (fs : FS) (b k : PyStr)
    (hint : MetadataHint) (r : S3Response) (cl : PyStr) (body : List Nat)
    (f : FileEnt) (hget : env.s3_get b k = some r)
    (hcl : r.contentLength = some cl) (hparse : env.parse_int cl = some 999)
    (hbody : r.body = some body) (hdiff : Int.ofNat body.length ≠ 999)
    (hok : from_s3 env fs b k hint = Except.ok f) :
    f.metadata.size = some 999 := by
  unfold from_s3 at hok
  simp only [hget, hbody, Except.ok.injEq] at hok
  subst hok
  show (build_metadata env fs FileSource.S3 _ none (some r) (some body)).size = some 999
  simp only [build_metadata]
  rw [normalizeStage_size, extFromMimeStage_size, magicStage_size, nameMimeStage_size,
    statStage_not_file _ _ _ _ (by decide)]
  exact s3Stage_size_of_parse env r _ cl 999 hcl hparse

/-- Witness for C5: the concrete S3 response with ContentLength attribute
999 and a two-byte body resolves to size 999. -/
theorem c5_s3_content_length_stands_witness :
    (getOk (from_s3 testEnv testFS (pys "bucket") (pys "dir/key.bin") {})).metadata.size =
      some 999 :=
  c5_s3_content_length_stands testEnv testFS (pys "bucket") (pys "dir/key.bin") {}
    testS3 (pys "999") [7, 7] _ (by decide) (by decide) (by decide) (by decide)
    (by decide) rfl

theorem splitFirstSlash_append (b k : PyStr) (hb : '/' ∉ b) :
    splitFirstSlash (b ++ '/' :: k) = some (b, k) := by
  induction b with
  | nil => simp [splitFirstSlash]
  | cons c t ih =>
    have hc : c ≠ '/' := fun h => hb (h ▸ List.mem_cons_self c t)
    have ht : '/' ∉ t := fun h => hb (List.mem_cons_of_mem c h)
    simp [splitFirstSlash, hc, ih ht]

theorem parse_s3_url_roundtrip (b k : PyStr) (hb : '/' ∉ b) :
    parse_s3_url (pys "s3://" ++ b ++ ['/'] ++ k) = Except.ok (b, k) := by
  have h0 : pys "s3://" ++ b ++ ['/'] ++ k =
      's' :: '3' :: ':' :: '/' :: '/' :: (b ++ ['/'] ++ k) := rfl
  have h5 : (pys "s3://").length = 5 := rfl
  have h1 : replaceFirstEmpty (pys "s3://") (pys "s3://" ++ b ++ ['/'] ++ k) =
      b ++ ['/'] ++ k := by
    rw [h0]
    simp [replaceFirstEmpty, List.isPrefixOf, h5]
  unfold parse_s3_url
  rw [h1, List.append_assoc]
  show (match splitFirstSlash (b ++ '/' :: k) with
    | some (a, b) => Except.ok (a, b)
    | none => Except.error Err.ioError) = Except.ok (b, k)
  rw [splitFirstSlash_append b k hb]

/-- C7: an object-storage-backed entity built from bucket b (no slash) and
key k (non-empty) stores the canonical s3 locator in its metadata url, and
parsing that locator back recovers exactly (b, k). -/
theorem c7_s3_url_roundtrip (env : Env) (fs : FS) (b k : PyStr)
    (hint : MetadataHint) (r : S3Response) (f : FileEnt)
    (hb : '/' ∉ b) (hk : k ≠ [])
    (hget : env.s3_get b k = some r)
    (hok : from_s3 env fs b k hint = Except.ok f) :
    f.metadata.url = some (pys "s3://" ++ b ++ ['/'] ++ k) ∧
    parse_s3_url (pys "s3://" ++ b ++ ['/'] ++ k) = Except.ok (b, k) := by
  constructor
  · unfold from_s3 at hok
    rcases hbody : r.body with _ | body
    · simp [hget, hbody] at hok
    · simp only [hget, hbody, Except.ok.injEq] at hok
      subst hok
      show (build_metadata env fs FileSource.S3 _ none (some r) (some body)).url = _
      simp only [build_metadata]
      rw [normalizeStage_url, extFromMimeStage_url, magicStage_url, nameMimeStage_url,
        statStage_url, s3Stage_url, httpStage_url]
      rfl
  · exact parse_s3_url_roundtrip b k hb

/-- Witness for C7: bucket and dir/key.bin round-trip through the stored
locator. -/
theorem c7_s3_url_roundtrip_witness :
    (getOk (from_s3 testEnv testFS (pys "bucket") (pys "dir/key.bin") {})).metadata.url =
      some (pys "s3://" ++ pys "bucket" ++ ['/'] ++ pys "dir/key.bin") ∧
    parse_s3_url (pys "s3://" ++ pys "bucket" ++ ['/'] ++ pys "dir/key.bin") =
      Except.ok (pys "bucket", pys "dir/key.bin") :=
  c7_s3_url_roundtrip testEnv testFS (pys "bucket") (pys "dir/key.bin") {} testS3 _
    (by decide) (by decide) (by decide) rfl

/-- C8: constructing from the bytes of Hello, world!  with a hint naming
hello.txt (the sniffer matches nothing on that content) resolves size 13,
mime type text/plain via the name-based fallback, and extension txt via
the MIME-to-extension fallback followed by separator stripping. -/
theorem c8_hello_txt_scenario :
    (from_bytes testEnv testFS (asciiBytes "Hello, world!")
      { name := some (pys "hello.txt") }).metadata.size = some 13 ∧
    (from_bytes testEnv testFS (asciiBytes "Hello, world!")
      { name := some (pys "hello.txt") }).metadata.mime_type = some (pys "text/plain") ∧
    (from_bytes testEnv testFS (asciiBytes "Hello, world!")
      { name := some (pys "hello.txt") }).metadata.extension = some (pys "txt") := by
  refine ⟨by decide, by decide, by decide⟩

theorem httpStage_parse_fail (env : Env) (r : HttpResponse) (m : Metadata)
    (cl lm : PyStr) (hcl : env.parse_int cl = none)
    (hlm : env.parse_http_date lm = none) :
    httpStage env (some { r with contentLength := some cl, lastModified := some lm }) m =
      httpStage env (some { r with contentLength := none, lastModified := none }) m := by
  unfold httpStage
  by_cases h : lm = []
  · simp [truthy, hcl, h]
  · simp [truthy, hcl, hlm, h]

/-- C9: a content-length header that fails to parse as an integer leaves
size at its prior value, and a last-modified header that fails to parse as
an HTTP date leaves the timestamp at its prior value; the resolver is a
total function, so construction proceeds with the partial metadata and
neither failure escapes. -/
theorem c9_absorbed_parse_failures (env : Env) (fs : FS) (src : FileSource)
    (hint : MetadataHint) (sr : Option S3Response) (data : Option (List Nat))
    (r : HttpResponse) (cl lm : PyStr) (hcl : env.parse_int cl = none)
    (hlm : env.parse_http_date lm = none) :
    build_metadata env fs src hint
        (some { r with contentLength := some cl, lastModified := some lm }) sr data =
      build_metadata env fs src hint
        (some { r with contentLength := none, lastModified := none }) sr data := by
  simp only [build_metadata]
  rw [httpStage_parse_fail env r _ cl lm hcl hlm]

/-- Witness for C9: an unparseable content-length and date behave exactly
like absent headers on a concrete construction. -/
theorem c9_absorbed_parse_failures_witness :
    build_metadata testEnv testFS FileSource.URL { size := some 4 }
        (some { contentLength := some (pys "abc"), lastModified := some (pys "nope") })
        none none =
      build_metadata testEnv testFS FileSource.URL { size := some 4 }
        (some { contentLength := none, lastModified := none }) none none :=
  c9_absorbed_parse_failures testEnv testFS FileSource.URL { size := some 4 } none none
    {} (pys "abc") (pys "nope") (by decide) rfl

theorem httpStage_size_no_cl (env : Env) (hr : Option HttpResponse) (m : Metadata)
    (h : ∀ r cl, hr = some r → r.contentLength = some cl → env.parse_int cl = none) :
    (httpStage env hr m).size = m.size := by
  cases hr with
  | none => rfl
  | some r =>
    unfold httpStage
    rcases hcl : r.contentLength with _ | cl
    · simp [hcl]
    · have hnone := h r cl rfl hcl
      simp [hcl, hnone]

theorem s3Stage_none (env : Env) (m : Metadata) : s3Stage env none m = m := rfl

/-- C10 counterexample: a caller hint that carries a transport-response
handle with a parseable content-length makes the resolved size differ from
the byte length, so the claim as stated fails on a one-byte input. -/
theorem c10_counterexample :
    (from_bytes testEnv testFS [72]
      { response := some { contentLength := some (pys "999") } }).metadata.size =
        some 999 ∧
    (999 : Int) ≠ Int.ofNat ([72] : List Nat).length := by
  refine ⟨by decide, by decide⟩

/-- C10 (amended): for from_bytes and from_stream, provided the hint does
not carry a transport-response handle whose content-length attribute parses
as an integer, the resolved size equals the exact byte length of the
materialized data; in particular the size supplied in the hint is
overwritten by the observed length before the cascade runs and never
appears. -/
theorem c10_size_is_data_length (env : Env) (fs : FS) (d : List Nat)
    (chunks : List (List Nat)) (hint : MetadataHint)
    (h : ∀ r cl, hint.response = some r → r.contentLength = some cl →
      env.parse_int cl = none) :
    (from_bytes env fs d hint).metadata.size = some (Int.ofNat d.length) ∧
    (from_stream env fs chunks hint).metadata.size =
      some (Int.ofNat (chunks.foldr (fun a b => a ++ b) []).length) := by
  constructor
  · show (build_metadata env fs FileSource.BYTES
      { hint with size := some (Int.ofNat d.length) } none none (some d)).size = _
    simp only [build_metadata]
    rw [normalizeStage_size, extFromMimeStage_size, magicStage_size, nameMimeStage_size,
      statStage_not_file _ _ _ _ (by decide), s3Stage_none,
      httpStage_size_no_cl env _ _ h]
    rfl
  · show (build_metadata env fs FileSource.STREAM
      { hint with size := some (Int.ofNat (chunks.foldr (fun a b => a ++ b) []).length) }
      none none (some (chunks.foldr (fun a b => a ++ b) []))).size = _
    simp only [build_metadata]
    rw [normalizeStage_size, extFromMimeStage_size, magicStage_size, nameMimeStage_size,
      statStage_not_file _ _ _ _ (by decide), s3Stage_none,
      httpStage_size_no_cl env _ _ h]
    rfl

/-- Witness for the amended statement of C10: a hint without a response handle,
but with a misleading size, still resolves to the observed lengths. -/
theorem c10_size_is_data_length_witness :
    (from_bytes testEnv testFS [9, 9, 9] { size := some 77 }).metadata.size = some 3 ∧
    (from_stream testEnv testFS [[1], [2, 3]] { size := some 77 }).metadata.size = some 3 :=
  c10_size_is_data_length testEnv testFS [9, 9, 9] [[1], [2, 3]] { size := some 77 }
    (fun r cl hr0 => by cases hr0)

theorem twoDots_ensureDot (e : PyStr) : twoDots (ensureDot e) = twoDots e := by
  unfold ensureDot
  by_cases h : startsDot e
  · simp [h]
  · cases e with
    | nil => simp [twoDots, startsDot]
    | cons c t =>
      simp only [startsDot, Bool.not_eq_true, decide_eq_false_iff_not] at h
      simp [h, twoDots, startsDot]

theorem magicStage_ext_twoDots (env : Env) (data : Option (List Nat)) (m : Metadata)
    (hm : ∀ e, m.extension = some e → twoDots e = false)
    (hdet : ∀ d e, (env.detect_from_bytes d).2 = some e → twoDots e = false) :
    ∀ e, (magicStage env data m).extension = some e → twoDots e = false := by
  intro e he
  cases data with
  | none => exact hm e he
  | some d =>
    simp only [magicStage] at he
    by_cases hd : d = []
    · simp [hd] at he
      exact hm e he
    · rw [if_pos hd] at he
      rcases hres : (env.detect_from_bytes d).2 with _ | me
      · simp only [hres] at he
        exact hm e he
      · simp only [hres] at he
        by_cases hme : me = []
        · simp [hme] at he
          exact hm e he
        · simp [hme] at he
          rw [← he, twoDots_ensureDot]
          exact hdet d me hres

theorem extFromMimeStage_ext_twoDots (env : Env) (m : Metadata)
    (hm : ∀ e, m.extension = some e → twoDots e = false)
    (htab : ∀ mt e, env.extension_from_mime mt = some e → twoDots e = false) :
    ∀ e, (extFromMimeStage env m).extension = some e → twoDots e = false := by
  intro e he
  unfold extFromMimeStage at he
  by_cases hc : ¬ truthy m.extension ∧ truthy m.mime_type
  · rw [if_pos hc] at he
    rcases hres : env.extension_from_mime (m.mime_type.getD []) with _ | e0
    · simp only [hres] at he
      exact hm e he
    · simp only [hres] at he
      by_cases he0 : e0 = []
      · simp [he0] at he
        exact hm e he
      · simp [he0] at he
        rw [← he]
        exact htab _ e0 hres
  · rw [if_neg hc] at he
    exact hm e he

theorem normalizeStage_no_leading_dot (m : Metadata)
    (hm : ∀ e, m.extension = some e → twoDots e = false) :
    ∀ e, (normalizeStage m).extension = some e → startsDot e = false := by
  intro e he
  unfold normalizeStage at he
  by_cases hc : truthy m.extension ∧ startsDot (m.extension.getD [])
  · rw [if_pos hc] at he
    simp only [Metadata.extension, Option.some.injEq] at he
    rcases hex : m.extension with _ | e0
    · rw [hex] at hc
      simp [truthy] at hc
    · have h2 := hm e0 hex
      rw [hex] at hc he
      cases e0 with
      | nil => simp [startsDot] at hc
      | cons c t =>
        obtain ⟨hc1, hc2⟩ := hc
        simp only [Option.getD, startsDot, decide_eq_true_eq] at hc2
        subst hc2
        simp only [twoDots, Bool.and_eq_false_iff] at h2
        simp only [Option.getD, List.drop] at he
        rw [← he]
        rcases h2 with h2 | h2
        · simp at h2
        · simpa using h2
  · rw [if_neg hc] at he
    by_contra hsd
    apply hc
    rw [he]
    have hne : e ≠ [] := by
      intro h0
      rw [h0] at hsd
      simp [startsDot] at hsd
    constructor
    · simp [truthy, hne]
    · simpa using hsd

/-- C3 counterexample: the final normalisation strips only one separator,
so a hint extension of two dots followed by pdf resolves to an extension
that still begins with the separator character. -/
theorem c3_counterexample :
    startsDot ((build_metadata testEnv testFS FileSource.BYTES
      { extension := some (pys "..pdf") } none none none).extension.getD []) = true ∧
    (build_metadata testEnv testFS FileSource.BYTES
      { extension := some (pys "..pdf") } none none none).extension = some (pys ".pdf") := by
  refine ⟨by decide, by decide⟩

/-- C3 (amended): whenever every extension entering the cascade (the hint
extension, any extension the byte-signature sniffer returns, any extension
the MIME-to-extension table returns) begins with at most one separator
character, the resolved extension never begins with a separator; the
single-dot condition holds for the real detectors, which produce
dot-plus-name extensions. -/
theorem c3_extension_no_leading_dot (env : Env) (fs : FS) (src : FileSource)
    (hint : MetadataHint) (hr : Option HttpResponse) (sr : Option S3Response)
    (data : Option (List Nat))
    (hhint : ∀ e, hint.extension = some e → twoDots e = false)
    (hdet : ∀ d e, (env.detect_from_bytes d).2 = some e → twoDots e = false)
    (htab : ∀ mt e, env.extension_from_mime mt = some e → twoDots e = false) :
    ∀ e, (build_metadata env fs src hint hr sr data).extension = some e →
      startsDot e = false := by
  simp only [build_metadata]
  apply normalizeStage_no_leading_dot
  apply extFromMimeStage_ext_twoDots _ _ _ htab
  apply magicStage_ext_twoDots _ _ _ _ hdet
  intro e he
  rw [nameMimeStage_ext, statStage_ext, s3Stage_ext, httpStage_ext] at he
  exact hhint e he

theorem testEnv_tab_twoDots :
    ∀ mt e, testEnv.extension_from_mime mt = some e → twoDots e = false := by
  intro mt e he
  simp only [testEnv] at he
  split at he
  · simp only [Option.some.injEq] at he
    subst he
    decide
  · split at he
    · simp only [Option.some.injEq] at he
      subst he
      decide
    · split at he
      · simp only [Option.some.injEq] at he
        subst he
        decide
      · simp at he

theorem testEnv_det_twoDots :
    ∀ d e, (testEnv.detect_from_bytes d).2 = some e → twoDots e = false := by
  intro d e he
  simp only [testEnv] at he
  by_cases hp : pngSig.isPrefixOf d
  · simp only [hp, if_true] at he
    simp only [Option.some.injEq] at he
    subst he
    decide
  · simp [hp] at he

/-- Witness for the amended statement of C3: a single-dot-free hint extension
with PNG-signature data resolves to the sniffed extension png, which does
not begin with a separator. -/
theorem c3_extension_no_leading_dot_witness :
    (build_metadata testEnv testFS FileSource.BYTES { extension := some (pys "pdf") }
      none none (some pngSig)).extension = some (pys "png") ∧
    startsDot (pys "png") = false :=
  ⟨by decide,
   c3_extension_no_leading_dot testEnv testFS FileSource.BYTES
     { extension := some (pys "pdf") } none none (some pngSig)
     (fun e he => by
       simp only [Option.some.injEq] at he
       subst he
       decide)
     testEnv_det_twoDots testEnv_tab_twoDots (pys "png") (by decide)⟩

/-- C6: when the extended RFC-5987 form matches in a header value, the
parser returns its percent-decoded value as the filename even when the
plain form is also present; when only the plain form matches it returns
that value trimmed of quotes and whitespace; the empty input yields
(none, none). -/
theorem c6_content_disposition_priority (uq : PyStr → PyStr)
    (hboth honly : PyStr) (g gq gp : PyStr)
    (hs : searchStar hboth = some g) (hq : searchPlain hboth = some gq)
    (hns : searchStar honly = none) (hp : searchPlain honly = some gp) :
    parse_content_disposition uq [] = (none, none) ∧
    (parse_content_disposition uq hboth).1 = some (uq (pyStrip g)) ∧
    (parse_content_disposition uq honly).1 = some (stripQuotes (pyStrip gp)) := by
  refine ⟨rfl, ?_, ?_⟩
  · have hne : hboth ≠ [] := by
      intro h0
      rw [h0] at hs
      simp [searchStar] at hs
    unfold parse_content_disposition
    rw [if_neg hne]
    simp [hs]
  · have hne : honly ≠ [] := by
      intro h0
      rw [h0] at hp
      simp [searchPlain] at hp
    unfold parse_content_disposition
    rw [if_neg hne]
    simp [hns, hp]

/-- Witness for C6: a header carrying both forms resolves to the decoded
extended-form value (my file.txt), and a plain-only header resolves to the
trimmed plain value. -/
theorem c6_content_disposition_priority_witness :
    parse_content_disposition percentDecode [] = (none, none) ∧
    (parse_content_disposition percentDecode
      (pys "attachment; filename=\"plain.txt\"; filename*=utf-8''my%20file.txt")).1 =
        some (percentDecode (pyStrip (pys "my%20file.txt"))) ∧
    (parse_content_disposition percentDecode (pys "attachment; filename=\"report.pdf\"")).1 =
        some (stripQuotes (pyStrip (pys "report.pdf"))) :=
  c6_content_disposition_priority percentDecode
    (pys "attachment; filename=\"plain.txt\"; filename*=utf-8''my%20file.txt")
    (pys "attachment; filename=\"report.pdf\"")
    (pys "my%20file.txt") (pys "plain.txt") (pys "report.pdf")
    (by decide) (by decide) (by decide) (by decide)
